import Mathlib

/-!
Verification of the instruction decoder, renderer, state model and executor
of the `googlectf-2021-weather` solver.

The Rust source (`src/main.rs`, `src/ex.rs`) is shallowly embedded here:
bytes are `Nat` (values `< 256`), the `u32` fields of an instruction are
`Nat` reduced mod `2^32` where the source wraps, and `i32` registers and
memory values are `Int` with two's-complement reinterpretation made
explicit.  Rust panics (out-of-bounds indexing/slicing, `assert!` failure,
and the catch-all explicit panic in the conversion-character match) are
modelled as distinct error outcomes of an `Except`, so that which failure
fires at which input is provable.  The spec's typed decoder error kinds
(`UnexpectedEndOfStream`, `MalformedInstruction`) are also present as
constructors so that claims about them can be stated; the embedding of the
source never produces them, because the source has no typed decode errors.
-/

deriving instance DecidableEq for Except

namespace Weather

/-- Destination addressing modes, named as in `src/main.rs` (`DestMode`).
Spec correspondence: `NoPlusMinus` = Direct, `Plus` = IndirectRegister,
`Minus` = AbsoluteAddress, `ZeroPad` = ZeroPadAbsolute. -/
inductive DestMode where
  | NoPlusMinus
  | Plus
  | Minus
  | ZeroPad
deriving DecidableEq

/-- Source addressing modes, named as in `src/main.rs` (`SrcMode`).
Spec correspondence: `HH` = LiteralIndirect, `H` = RegisterIndirect,
`LL` = Literal, `L` = RegisterDirect, `None` = Absent. -/
inductive SrcMode where
  | HH
  | H
  | LL
  | L
  | None
deriving DecidableEq

/-- Operations, named as in `src/main.rs` (`Operation`). -/
inductive Operation where
  | Jmp
  | Mov
  | Add
  | Sub
  | Mul
  | Div
  | Mod
  | ShLeft
  | ShRight
  | Xor
  | And
  | Or
  | Ret
deriving DecidableEq

/-- Decoded instruction, as in `src/main.rs` (`struct Instruction`).
`dest` is the width field (`u32`), `src` the precision field (`u32`). -/
structure Instruction where
  dest : Nat
  src : Nat
  dest_mode : DestMode
  src_mode : SrcMode
  op : Operation
deriving DecidableEq

/-- Failure outcomes of decoding.  The first two are the spec's typed error
kinds; the last three model the Rust panics the source actually has:
`oobPanic` is the index/slice out-of-bounds panic (`mem[0]` on an empty
slice), `assertPanic` is the failure of `assert!(b'%' == mem[0])`, and
`matchPanic` is the explicit catch-all panic in the conversion-character
match. -/
inductive DecodeErr where
  | unexpectedEndOfStream
  | malformedInstruction
  | oobPanic
  | assertPanic
  | matchPanic
deriving DecidableEq

/-- `parse_int` of `src/main.rs` lines 190-203: consume a run of ASCII
decimal digits, accumulating `val = val * 10 + digit` in a `u32`
(wrapping, hence the reduction mod `2^32`).  The loop reads `mem[0]`
before testing it, so an empty slice is an out-of-bounds panic even when
zero digits would be acceptable. -/
def parse_int : Nat → List Nat → Except DecodeErr (Nat × List Nat)
  | _, [] => .error .oobPanic
  | val, c :: rest =>
    if 48 ≤ c ∧ c ≤ 57 then
      parse_int ((val * 10 + (c - 48)) % 4294967296) rest
    else
      .ok (val, c :: rest)

/-- Flag parsing, `src/main.rs` lines 136-142.  Note the `0.` lookahead:
a `0` followed by `.` selects `NoPlusMinus` and consumes nothing. -/
def parseFlags (mem : List Nat) : DestMode × List Nat :=
  match mem with
  | 45 :: rest => (.Minus, rest)
  | 43 :: rest => (.Plus, rest)
  | 48 :: 46 :: _ => (.NoPlusMinus, mem)
  | 48 :: rest => (.ZeroPad, rest)
  | _ => (.NoPlusMinus, mem)

/-- Precision field and length modifier, `src/main.rs` lines 147-162.
Reading `mem[0]` on an empty slice panics; if the first byte is `.` it is
consumed, a digit run is parsed, and the optional `hh`/`h`/`ll`/`l`
modifier picks the source mode. -/
def parsePrecision (mem : List Nat) : Except DecodeErr (Nat × SrcMode × List Nat) :=
  match mem with
  | [] => .error .oobPanic
  | 46 :: rest =>
    match parse_int 0 rest with
    | .error e => .error e
    | .ok (operand2, mem2) =>
      match mem2 with
      | 104 :: 104 :: r => .ok (operand2, .HH, r)
      | 104 :: r => .ok (operand2, .H, r)
      | 108 :: 108 :: r => .ok (operand2, .LL, r)
      | 108 :: r => .ok (operand2, .L, r)
      | _ => .ok (operand2, SrcMode.None, mem2)
  | _ => .ok (0, SrcMode.None, mem)

/-- Conversion-character table, `src/main.rs` lines 164-177. -/
def convOp (c : Nat) : Option Operation :=
  match c with
  | 67 => some .Jmp
  | 77 => some .Mov
  | 83 => some .Add
  | 79 => some .Sub
  | 88 => some .Mul
  | 86 => some .Div
  | 78 => some .Mod
  | 76 => some .ShLeft
  | 82 => some .ShRight
  | 69 => some .Xor
  | 73 => some .And
  | 85 => some .Or
  | _ => none

/-- Consuming the conversion-character byte, `src/main.rs` lines 164-178
plus the `&mem[1..]` advance of line 186: `mem[0]` on an empty slice is an
out-of-bounds panic, a byte outside the table is the explicit panic. -/
def parseOperationByte (mem : List Nat) : Except DecodeErr (Operation × List Nat) :=
  match mem with
  | [] => .error .oobPanic
  | c :: rest =>
    match convOp c with
    | some op => .ok (op, rest)
    | none => .error .matchPanic

/-- `Instruction::parse` of `src/main.rs` lines 121-187.  A leading zero
byte yields the terminal `Ret` instruction (with the `Minus`/`LL` filler
modes the source hard-codes) consuming one byte; otherwise the marker `%`
(37) is asserted, then flags, width, optional precision/length modifier
and the conversion character are parsed in order. -/
def parse (mem : List Nat) : Except DecodeErr (Instruction × List Nat) :=
  match mem with
  | [] => .error .oobPanic
  | b :: rest =>
    if b = 0 then
      .ok (⟨0, 0, .Minus, .LL, .Ret⟩, rest)
    else if b = 37 then
      match parse_int 0 (parseFlags rest).2 with
      | .error e => .error e
      | .ok (operand1, mem2) =>
        match parsePrecision mem2 with
        | .error e => .error e
        | .ok (operand2, op2_mode, mem3) =>
          match parseOperationByte mem3 with
          | .error e => .error e
          | .ok (op, rest3) =>
            .ok (⟨operand1, operand2, (parseFlags rest).1, op2_mode, op⟩, rest3)
    else
      .error .assertPanic

/-- Projection used to state claims about the decoded width field. -/
def decodedDest (bs : List Nat) : Option Nat :=
  match parse bs with
  | .ok (i, _) => some i.dest
  | .error _ => none

/-! ### Renderer (`Display for Instruction`, `src/main.rs` lines 54-115)

The two rendering panics (`_ => panic!()` on the destination written with
`ZeroPad` mode or the source written with `None` mode on a data operation)
are modelled as `none`. -/

/-- Rust `{:x}`: minimal lowercase hexadecimal digits. -/
def hexStr (n : Nat) : String := String.mk (Nat.toDigits 16 n)

/-- Rust `{:#0x}` with no width: `0x` followed by minimal lowercase hex. -/
def hex0x (n : Nat) : String := "0x" ++ hexStr n

/-- Rust `{}` on a `u32`: decimal digits. -/
def decStr (n : Nat) : String := toString n

/-- The "new syntax" operator table of the renderer (`src/main.rs` lines
81-91); `Jmp` and `Ret` are returned from early and have no entry. -/
def opText : Operation → Option String
  | .Mov => some "="
  | .Add => some "+="
  | .Sub => some "-="
  | .Mul => some "*="
  | .Div => some "/="
  | .Mod => some "%="
  | .ShLeft => some "<<="
  | .ShRight => some ">>="
  | .Xor => some "^="
  | .And => some "&="
  | .Or => some "|="
  | .Jmp => none
  | .Ret => none

/-- Destination operand text (`src/main.rs` lines 96-101); the `ZeroPad`
arm is the renderer's panic. -/
def destText (m : DestMode) (d : Nat) : Option String :=
  match m with
  | .Minus => some ("[" ++ hex0x d ++ "]")
  | .Plus => some ("[r" ++ decStr d ++ "]")
  | .NoPlusMinus => some ("s.r" ++ decStr d)
  | .ZeroPad => none

/-- Source operand text (`src/main.rs` lines 107-113); the `None` arm is
the renderer's panic. -/
def srcText (m : SrcMode) (v : Nat) : Option String :=
  match m with
  | .HH => some ("[" ++ hex0x v ++ "];")
  | .H => some ("s.mem[s.r" ++ decStr v ++ " as u32 as usize];")
  | .L => some ("s.r" ++ decStr v ++ ";")
  | .LL => some (hex0x v ++ ";")
  | .None => none

/-- The full renderer (`Display::fmt`, `src/main.rs` lines 55-114): `Jmp`
renders as an unconditional call for `NoPlusMinus` and as a zero-compare
guarded call for the other three destination modes; `Ret` renders as
`ret`; every other operation renders destination, operator and source. -/
def render (i : Instruction) : Option String :=
  match i.op with
  | .Jmp =>
    match i.dest_mode with
    | .Minus =>
      some ("if s.r" ++ decStr i.src ++ " < 0 \x7b stage2_" ++ hexStr i.dest ++ "(&mut s); \x7d")
    | .Plus =>
      some ("if s.r" ++ decStr i.src ++ " > 0 \x7b stage2_" ++ hexStr i.dest ++ "(&mut s); \x7d")
    | .ZeroPad =>
      some ("if s.r" ++ decStr i.src ++ " == 0 \x7b stage2_" ++ hexStr i.dest ++ "(&mut s); \x7d")
    | .NoPlusMinus =>
      some ("stage2_" ++ hexStr i.dest ++ "(&mut s);")
  | .Ret => some "ret"
  | op =>
    match destText i.dest_mode i.dest, opText op, srcText i.src_mode i.src with
    | some d, some o, some s => some (d ++ " " ++ o ++ " " ++ s)
    | _, _, _ => none

/-! ### State (`src/ex.rs` lines 2-48)

Five `i32` registers and a byte-addressable memory.  `store`/`read`
reinterpret the signed 32-bit address as an unsigned byte offset and
move four little-endian bytes.  The Rust slice accesses panic when the
offset `+ 4` exceeds the buffer, modelled as `none`.  `read` takes the
state by mutable reference in the source, so it is embedded as returning
the (unchanged) state next to the value. -/

/-- The virtual machine state (`struct State`, `src/ex.rs`). -/
structure State where
  r0 : Int
  r1 : Int
  r2 : Int
  r3 : Int
  r4 : Int
  mem : List Nat
deriving DecidableEq

/-- An `i32` address reinterpreted as a `u32` byte offset
(`dest as u32 as usize`). -/
def addrOffset (a : Int) : Nat := (a % 4294967296).toNat

/-- A `u32` bit pattern reinterpreted as an `i32` value. -/
def i32ofU32 (u : Nat) : Int :=
  if u < 2147483648 then (u : Int) else (u : Int) - 4294967296

/-- An `i32` value reinterpreted as a `u32` bit pattern. -/
def u32ofI32 (v : Int) : Nat := (v % 4294967296).toNat

/-- `i32::to_le_bytes`: the four little-endian bytes of a value. -/
def leBytes (v : Int) : List Nat :=
  [u32ofI32 v % 256, u32ofI32 v / 256 % 256,
   u32ofI32 v / 65536 % 256, u32ofI32 v / 16777216 % 256]

/-- `State::store` (`src/ex.rs` lines 16-24): write the four little-endian
bytes of `src` at the unsigned reinterpretation of `dest`.  The slice
assignment panics out of bounds, modelled as `none`.  (The `println!`
logging is I/O only and carries no state.) -/
def State.store (s : State) (dest src : Int) : Option State :=
  let i := addrOffset dest
  if i + 4 ≤ s.mem.length then
    some { s with mem := s.mem.take i ++ leBytes src ++ s.mem.drop (i + 4) }
  else
    none

/-- `State::read` (`src/ex.rs` lines 27-38): read four little-endian bytes
at the unsigned reinterpretation of `src` and reassemble them as an
`i32`.  Takes `&mut self` in the source, hence the returned state. -/
def State.read (s : State) (src : Int) : Option (State × Int) :=
  let i := addrOffset src
  if i + 4 ≤ s.mem.length then
    some (s, i32ofU32 (s.mem.getD i 0 + 256 * s.mem.getD (i + 1) 0 +
      65536 * s.mem.getD (i + 2) 0 + 16777216 * s.mem.getD (i + 3) 0))
  else
    none

/-! ### Executor

The source has no generic executor: the decoded program's logic is
hand-ported into named Rust functions (`stage2_105`, `collatz_helper`,
...).  The definitions below are therefore modelled from the spec's §4.5
contract, reusing the source-embedded `State.store`/`State.read` for all
memory traffic. -/

/-- Execution failures of the spec's executor contract (§4.3, §4.5/§7). -/
inductive ExecErr where
  | outOfBounds
  | divisionByZero
  | invalidOperand
deriving DecidableEq

/-- Control signals returned to the caller-supplied dispatcher (§4.5). -/
inductive Signal where
  | fallthrough
  | jump (dest : Nat) (dest_mode : DestMode) (src : Nat)
  | ret
deriving DecidableEq

/-- Modelled from the spec: two's-complement wrap-around of register
arithmetic ("All arithmetic on registers wraps silently", §4.5). -/
def wrap32 (x : Int) : Int := i32ofU32 (u32ofI32 x)

/-- Modelled from the spec: the five fixed-purpose registers, selected by
index (§3 "State"); indices outside 0-4 have no register. -/
def getReg (s : State) : Nat → Int
  | 0 => s.r0
  | 1 => s.r1
  | 2 => s.r2
  | 3 => s.r3
  | 4 => s.r4
  | _ => 0

/-- Modelled from the spec: register write-back by index. -/
def setReg (s : State) (n : Nat) (v : Int) : State :=
  match n with
  | 0 => { s with r0 := v }
  | 1 => { s with r1 := v }
  | 2 => { s with r2 := v }
  | 3 => { s with r3 := v }
  | 4 => { s with r4 := v }
  | _ => s

/-- A memory read through the source-embedded `State.read`, surfacing the
bounds failure as the spec's `OutOfBounds` error (§4.3). -/
def readMemE (s : State) (a : Int) : Except ExecErr Int :=
  match s.read a with
  | some (_, v) => .ok v
  | none => .error .outOfBounds

/-- Modelled from the spec: read the source operand per `src_mode` (§3
"SourceMode", §4.5).  `HH` reads memory at the literal address, `H` at
the address held in the named register, `L` reads the register, `LL` is
the literal itself; `Absent` is only legal on control transfers. -/
def readSource (i : Instruction) (s : State) : Except ExecErr Int :=
  match i.src_mode with
  | .HH => readMemE s (i32ofU32 (i.src % 4294967296))
  | .H => readMemE s (getReg s i.src)
  | .L => .ok (getReg s i.src)
  | .LL => .ok (i32ofU32 (i.src % 4294967296))
  | .None => .error .invalidOperand

/-- Modelled from the spec: read the destination's current value per
`dest_mode` (read-modify-write, §3 "Operation"); `ZeroPad` collapses to
`Minus` (absolute address) semantics for execution (§3). -/
def readDest (i : Instruction) (s : State) : Except ExecErr Int :=
  match i.dest_mode with
  | .NoPlusMinus => .ok (getReg s i.dest)
  | .Minus => readMemE s (i32ofU32 (i.dest % 4294967296))
  | .ZeroPad => readMemE s (i32ofU32 (i.dest % 4294967296))
  | .Plus => readMemE s (getReg s i.dest)

/-- Modelled from the spec: write the result back per `dest_mode`. -/
def writeDest (i : Instruction) (s : State) (v : Int) : Except ExecErr State :=
  match i.dest_mode with
  | .NoPlusMinus => .ok (setReg s i.dest v)
  | .Minus =>
    match s.store (i32ofU32 (i.dest % 4294967296)) v with
    | some s' => .ok s'
    | none => .error .outOfBounds
  | .ZeroPad =>
    match s.store (i32ofU32 (i.dest % 4294967296)) v with
    | some s' => .ok s'
    | none => .error .outOfBounds
  | .Plus =>
    match s.store (getReg s i.dest) v with
    | some s' => .ok s'
    | none => .error .outOfBounds

/-- Modelled from the spec: combine the destination's current value with
the source value per the operation (§3 "Operation", §4.5).  Division and
modulo by zero fail with `DivisionByZero` (§4.5/§7); everything else
wraps silently.  `Jmp`/`Ret` never reach this function. -/
def applyOp (op : Operation) (dv sv : Int) : Except ExecErr Int :=
  match op with
  | .Mov => .ok sv
  | .Add => .ok (wrap32 (dv + sv))
  | .Sub => .ok (wrap32 (dv - sv))
  | .Mul => .ok (wrap32 (dv * sv))
  | .Div => if sv = 0 then .error .divisionByZero else .ok (wrap32 (Int.tdiv dv sv))
  | .Mod => if sv = 0 then .error .divisionByZero else .ok (wrap32 (Int.tmod dv sv))
  | .ShLeft => .ok (wrap32 (dv * 2 ^ (sv.toNat % 32)))
  | .ShRight => .ok (wrap32 (Int.fdiv dv (2 ^ (sv.toNat % 32))))
  | .Xor => .ok (i32ofU32 (Nat.xor (u32ofI32 dv) (u32ofI32 sv)))
  | .And => .ok (i32ofU32 (Nat.land (u32ofI32 dv) (u32ofI32 sv)))
  | .Or => .ok (i32ofU32 (Nat.lor (u32ofI32 dv) (u32ofI32 sv)))
  | .Jmp => .ok dv
  | .Ret => .ok dv

/-- Modelled from the spec: `execute(instr, state)` (§4.5).  `Jmp` and
`Ret` are control signals for the external dispatcher and touch nothing;
data operations read the source, read the destination, combine, and only
then write back, so any failure leaves the state exactly as it was. -/
def execute (i : Instruction) (s : State) : State × Except ExecErr Signal :=
  match i.op with
  | .Jmp => (s, .ok (.jump i.dest i.dest_mode i.src))
  | .Ret => (s, .ok .ret)
  | _ =>
    match readSource i s with
    | .error e => (s, .error e)
    | .ok sv =>
      match readDest i s with
      | .error e => (s, .error e)
      | .ok dv =>
        match applyOp i.op dv sv with
        | .error e => (s, .error e)
        | .ok res =>
          match writeDest i s res with
          | .error e => (s, .error e)
          | .ok s' => (s', .ok .fallthrough)

/-! ### Helper lemmas about the decoder's failure behaviour -/

/-- The digit-run parser can only fail by running past the end of the
buffer (the `mem[0]` read in its loop). -/
theorem parse_int_error : ∀ (l : List Nat) (v : Nat) (e : DecodeErr),
    parse_int v l = .error e → e = .oobPanic := by
  intro l
  induction l with
  | nil =>
    intro v e h
    simp only [parse_int] at h
    injection h with h
    exact h.symm
  | cons c tl ih =>
    intro v e h
    simp only [parse_int] at h
    split at h
    · exact ih _ _ h
    · exact Except.noConfusion h

/-- The precision-field parser can only fail by running past the end of
the buffer. -/
theorem parsePrecision_error (l : List Nat) (e : DecodeErr)
    (h : parsePrecision l = .error e) : e = .oobPanic := by
  unfold parsePrecision at h
  split at h
  · injection h with h
    exact h.symm
  · rename_i rest
    rcases hpi : parse_int 0 rest with e' | ⟨o2, m2⟩
    · simp only [hpi] at h
      injection h with h
      exact h ▸ parse_int_error _ _ _ hpi
    · simp only [hpi] at h
      split at h <;> exact Except.noConfusion h
  · exact Except.noConfusion h

/-- The conversion-character step fails either by running past the end of
the buffer or by the explicit panic on a byte outside the table. -/
theorem parseOperationByte_error (l : List Nat) (e : DecodeErr)
    (h : parseOperationByte l = .error e) : e = .oobPanic ∨ e = .matchPanic := by
  unfold parseOperationByte at h
  split at h
  · injection h with h
    exact Or.inl h.symm
  · split at h
    · exact Except.noConfusion h
    · injection h with h
      exact Or.inr h.symm

/-- The conversion-character table never yields `Ret`: the sentinel is the
only producer of the terminal instruction. -/
theorem convOp_ne_ret (c : Nat) (op : Operation) (h : convOp c = some op) :
    op ≠ .Ret := by
  intro hret
  subst hret
  unfold convOp at h
  split at h <;> simp at h

/-- A successfully consumed conversion character never yields `Ret`. -/
theorem parseOperationByte_ok (l : List Nat) (op : Operation) (r : List Nat)
    (h : parseOperationByte l = .ok (op, r)) : op ≠ .Ret := by
  unfold parseOperationByte at h
  split at h
  · exact Except.noConfusion h
  · rename_i c rest
    rcases hc : convOp c with _ | op'
    · rw [hc] at h
      exact Except.noConfusion h
    · rw [hc] at h
      injection h with h
      injection h with h1 h2
      exact h1 ▸ convOp_ne_ret c op' hc

/-- Every failure of the decoder is one of the three Rust panics: the
out-of-bounds slice read, the marker `assert!`, or the explicit panic of
the conversion match.  In particular the decoder never produces the
spec's typed `UnexpectedEndOfStream`/`MalformedInstruction` results. -/
theorem parse_error_shape (bs : List Nat) (e : DecodeErr)
    (h : parse bs = .error e) :
    e = .oobPanic ∨ e = .assertPanic ∨ e = .matchPanic := by
  unfold parse at h
  split at h
  · injection h with h
    exact Or.inl h.symm
  · rename_i b rest
    split at h
    · exact Except.noConfusion h
    · split at h
      · rcases hpi : parse_int 0 (parseFlags rest).2 with e' | ⟨o1, mem2⟩
        · simp only [hpi] at h
          injection h with h
          exact Or.inl (h ▸ parse_int_error _ _ _ hpi)
        · simp only [hpi] at h
          rcases hpp : parsePrecision mem2 with e' | ⟨o2, m2, mem3⟩
          · simp only [hpp] at h
            injection h with h
            exact Or.inl (h ▸ parsePrecision_error _ _ hpp)
          · simp only [hpp] at h
            rcases hpo : parseOperationByte mem3 with e' | ⟨op, rest3⟩
            · simp only [hpo] at h
              injection h with h
              rcases parseOperationByte_error _ _ hpo with h1 | h1
              · exact Or.inl (h ▸ h1)
              · exact Or.inr (Or.inr (h ▸ h1))
            · simp only [hpo] at h
              exact Except.noConfusion h
      · injection h with h
        exact Or.inr (Or.inl h.symm)

/-- A successful decode whose operation is `Ret` can only come from the
zero sentinel, which consumes exactly one byte. -/
theorem parse_ret_only_sentinel (bs : List Nat) (i : Instruction)
    (rest : List Nat) (h : parse bs = .ok (i, rest)) (hret : i.op = .Ret) :
    bs = 0 :: rest := by
  unfold parse at h
  split at h
  · exact Except.noConfusion h
  · rename_i b tl
    split at h
    · rename_i hb0
      injection h with h
      injection h with h1 h2
      rw [hb0, h2]
    · split at h
      · rcases hpi : parse_int 0 (parseFlags tl).2 with e' | ⟨o1, mem2⟩
        · simp only [hpi] at h
          exact Except.noConfusion h
        · simp only [hpi] at h
          rcases hpp : parsePrecision mem2 with e' | ⟨o2, m2, mem3⟩
          · simp only [hpp] at h
            exact Except.noConfusion h
          · simp only [hpp] at h
            rcases hpo : parseOperationByte mem3 with e' | ⟨op, rest3⟩
            · simp only [hpo] at h
              exact Except.noConfusion h
            · simp only [hpo] at h
              injection h with h
              injection h with h1 h2
              have hop : i.op = op := by rw [← h1]
              exact absurd (hop ▸ hret) (parseOperationByte_ok _ _ _ hpo)
      · exact Except.noConfusion h

/-! ### Claim theorems -/

/-- C1, counterexample: decoding `"%0.5M"` does not give `dest = 5`: the
`0` stays in the width field, so the width parse yields `dest = 0` and
the `5` is the precision field. -/
theorem C1_counterexample : decodedDest [37, 48, 46, 53, 77] ≠ some 5 := by
  decide

/-- C1 (amended): decoding `"%0.5M"` selects `dest_mode = Direct`
(`NoPlusMinus`) thanks to the `0.` lookahead, with `dest = 0` and
`src = 5`, while `"%05M"` selects `dest_mode = ZeroPadAbsolute`
(`ZeroPad`) with `dest = 5`; both decode `op = Move`. -/
theorem C1_flag_lookahead :
    parse [37, 48, 46, 53, 77] =
      .ok (⟨0, 5, .NoPlusMinus, SrcMode.None, .Mov⟩, []) ∧
    parse [37, 48, 53, 77] =
      .ok (⟨5, 0, .ZeroPad, SrcMode.None, .Mov⟩, []) := by
  decide

/-- C2: a leading zero byte always decodes to the terminal `Return`
instruction consuming exactly one byte, whatever follows; and a decoded
`Return` can only have come from that sentinel. -/
theorem C2_zero_sentinel :
    (∀ bs : List Nat, parse (0 :: bs) = .ok (⟨0, 0, .Minus, .LL, .Ret⟩, bs)) ∧
    (∀ (bs : List Nat) (i : Instruction) (rest : List Nat),
      parse bs = .ok (i, rest) → i.op = .Ret → bs = 0 :: rest) := by
  exact ⟨fun _ => rfl, parse_ret_only_sentinel⟩

/-- C2 witness: the sentinel at a concrete input. -/
theorem C2_zero_sentinel_witness :
    parse [0, 5] = .ok (⟨0, 0, .Minus, .LL, .Ret⟩, [5]) ∧
    ([0, 5] : List Nat) = 0 :: [5] :=
  ⟨C2_zero_sentinel.1 [5],
   C2_zero_sentinel.2 [0, 5] ⟨0, 0, .Minus, .LL, .Ret⟩ [5] (by decide) rfl⟩

/-- C3, counterexample: on the empty slice the decoder does not surface a
typed `UnexpectedEndOfStream` result; it hits the out-of-bounds panic of
`mem[0]`. -/
theorem C3_counterexample :
    parse [] ≠ .error DecodeErr.unexpectedEndOfStream := by
  decide

/-- C3 (amended): a decoder given an empty byte slice (or a slice that
ends while more grammar is still expected, e.g. just `"%"`) fails by the
Rust index-out-of-bounds panic, and no input ever produces a typed
`UnexpectedEndOfStream` result. -/
theorem C3_end_of_stream :
    parse [] = .error .oobPanic ∧
    parse [37] = .error .oobPanic ∧
    (∀ bs : List Nat, parse bs ≠ .error .unexpectedEndOfStream) := by
  refine ⟨by decide, by decide, ?_⟩
  intro bs h
  rcases parse_error_shape bs _ h with h1 | h1 | h1 <;>
    exact DecodeErr.noConfusion h1

/-- C3 witness: the no-typed-error part at a concrete input. -/
theorem C3_end_of_stream_witness :
    parse [37, 77] ≠ .error .unexpectedEndOfStream :=
  C3_end_of_stream.2.2 [37, 77]

/-- C4, counterexample: a first byte that is neither the zero sentinel
nor `%` does not produce a typed `MalformedInstruction` result; the
`assert!` panics. -/
theorem C4_counterexample :
    parse [65] ≠ .error DecodeErr.malformedInstruction := by
  decide

/-- C4 (amended): a first byte that is neither the zero sentinel nor the
`%` marker makes the decoder fail by the `assert!` panic; a
conversion-character byte outside the fixed 12-entry table makes it fail
by the explicit panic of the conversion match; no input ever produces a
typed `MalformedInstruction` result. -/
theorem C4_malformed :
    (∀ (b : Nat) (bs : List Nat), b ≠ 0 → b ≠ 37 →
      parse (b :: bs) = .error .assertPanic) ∧
    (∀ (c : Nat) (bs : List Nat), convOp c = none →
      parseOperationByte (c :: bs) = .error .matchPanic) ∧
    (∀ bs : List Nat, parse bs ≠ .error .malformedInstruction) := by
  refine ⟨?_, ?_, ?_⟩
  · intro b bs h0 h37
    simp [parse, h0, h37]
  · intro c bs hc
    simp [parseOperationByte, hc]
  · intro bs h
    rcases parse_error_shape bs _ h with h1 | h1 | h1 <;>
      exact DecodeErr.noConfusion h1

/-- C4 witness: the three parts at concrete inputs (`'A'` = 65 as a bad
marker, `'B'` = 66 as a bad conversion character). -/
theorem C4_malformed_witness :
    parse [65] = .error .assertPanic ∧
    parseOperationByte [66, 1] = .error .matchPanic ∧
    parse [37, 77] ≠ .error .malformedInstruction :=
  ⟨C4_malformed.1 65 [] (by decide) (by decide),
   C4_malformed.2.1 66 [1] (by decide),
   C4_malformed.2.2 [37, 77]⟩

/-- C5: decoding `"%+3.2hhX"` yields `dest = 3`,
`dest_mode = IndirectRegister` (`Plus`), `src = 2`,
`src_mode = LiteralIndirect` (`HH`), `op = Mul`, with nothing left over. -/
theorem C5_decode_example :
    parse [37, 43, 51, 46, 50, 104, 104, 88] =
      .ok (⟨3, 2, .Plus, .HH, .Mul⟩, []) := by
  decide

/-- C7: for every `Jump` instruction the renderer produces the
unconditional call to the target named by `dest` when
`dest_mode = Direct` (`NoPlusMinus`), and for each other `dest_mode` a
conditional call guarded by comparing the `src` register against zero
with the operator fixed by the `dest_mode` (`<` for `Minus`, `>` for
`Plus`, `==` for `ZeroPad`); `Return` renders as the literal `ret`. -/
theorem C7_jump_render (d sr : Nat) (dm : DestMode) (sm : SrcMode) :
    render ⟨d, sr, .NoPlusMinus, sm, .Jmp⟩ =
      some ("stage2_" ++ hexStr d ++ "(&mut s);") ∧
    render ⟨d, sr, .Minus, sm, .Jmp⟩ =
      some ("if s.r" ++ decStr sr ++ " < 0 \x7b stage2_" ++ hexStr d ++ "(&mut s); \x7d") ∧
    render ⟨d, sr, .Plus, sm, .Jmp⟩ =
      some ("if s.r" ++ decStr sr ++ " > 0 \x7b stage2_" ++ hexStr d ++ "(&mut s); \x7d") ∧
    render ⟨d, sr, .ZeroPad, sm, .Jmp⟩ =
      some ("if s.r" ++ decStr sr ++ " == 0 \x7b stage2_" ++ hexStr d ++ "(&mut s); \x7d") ∧
    render ⟨d, sr, dm, sm, .Ret⟩ = some "ret" := by
  refine ⟨rfl, rfl, rfl, rfl, ?_⟩
  cases dm <;> rfl

/-- C8, counterexample: a `Jump` with `dest_mode = Direct`
(`NoPlusMinus`) is not rendered as the `> 0` conditional; it is the
unconditional call. -/
theorem C8_counterexample :
    render ⟨5, 1, .NoPlusMinus, SrcMode.None, .Jmp⟩ ≠
      some ("if s.r1 > 0 \x7b stage2_5(&mut s); \x7d") := by
  decide

/-- C8 (amended): control-transfer instructions reuse `ZeroPadAbsolute`
(`ZeroPad`), `IndirectRegister` (`Plus`) and `AbsoluteAddress` (`Minus`)
as the conditional-branch predicates `== 0`, `> 0` and `< 0`
respectively; `Direct` (`NoPlusMinus`) is instead the unconditional
call. -/
theorem C8_jump_predicates (d sr : Nat) (sm : SrcMode) :
    render ⟨d, sr, .ZeroPad, sm, .Jmp⟩ =
      some ("if s.r" ++ decStr sr ++ " == 0 \x7b stage2_" ++ hexStr d ++ "(&mut s); \x7d") ∧
    render ⟨d, sr, .Plus, sm, .Jmp⟩ =
      some ("if s.r" ++ decStr sr ++ " > 0 \x7b stage2_" ++ hexStr d ++ "(&mut s); \x7d") ∧
    render ⟨d, sr, .Minus, sm, .Jmp⟩ =
      some ("if s.r" ++ decStr sr ++ " < 0 \x7b stage2_" ++ hexStr d ++ "(&mut s); \x7d") ∧
    render ⟨d, sr, .NoPlusMinus, sm, .Jmp⟩ =
      some ("stage2_" ++ hexStr d ++ "(&mut s);") :=
  ⟨rfl, rfl, rfl, rfl⟩

/-- Reading an element of the middle block of a three-block
concatenation. -/
theorem getD_stack (T B D : List Nat) (i k : Nat) (hT : T.length = i)
    (hk : k < B.length) : (T ++ B ++ D).getD (i + k) 0 = B.getD k 0 := by
  rw [List.append_assoc, List.getD_eq_getElem?_getD, List.getD_eq_getElem?_getD]
  rw [List.getElem?_append_right (by omega : T.length ≤ i + k)]
  have hik : i + k - T.length = k := by omega
  rw [hik, List.getElem?_append_left hk]

/-- C6: for every in-bounds address and every 32-bit value, `store`
succeeds and an immediate `read` of the same address returns the value
(and the untouched state): four little-endian bytes are written at the
unsigned reinterpretation of the address and reassembled identically. -/
theorem C6_store_read_roundtrip (s : State) (addr v : Int)
    (hin : addrOffset addr + 4 ≤ s.mem.length)
    (hlo : -2147483648 ≤ v) (hhi : v < 2147483648) :
    (s.store addr v).isSome = true ∧
    ∀ s' : State, s.store addr v = some s' → s'.read addr = some (s', v) := by
  have hstore : s.store addr v = some { s with mem :=
      (s.mem.take (addrOffset addr) ++ leBytes v ++
        s.mem.drop (addrOffset addr + 4)) } := by
    simp [State.store, hin]
  refine ⟨by rw [hstore]; rfl, ?_⟩
  intro s' hs'
  rw [hstore] at hs'
  injection hs' with hs'
  subst hs'
  have hlt : (s.mem.take (addrOffset addr)).length = addrOffset addr := by
    rw [List.length_take]
    omega
  have hlen : (s.mem.take (addrOffset addr) ++ leBytes v ++
      s.mem.drop (addrOffset addr + 4)).length = s.mem.length := by
    simp only [List.length_append, hlt, leBytes, List.length_cons,
      List.length_nil, List.length_drop]
    omega
  have hb : ∀ k : Nat, k < 4 →
      (s.mem.take (addrOffset addr) ++ leBytes v ++
        s.mem.drop (addrOffset addr + 4)).getD (addrOffset addr + k) 0 =
      (leBytes v).getD k 0 := by
    intro k hk
    exact getD_stack _ _ _ _ k hlt (by simp [leBytes]; omega)
  have h0 := hb 0 (by omega)
  have h1 := hb 1 (by omega)
  have h2 := hb 2 (by omega)
  have h3 := hb 3 (by omega)
  simp only [Nat.add_zero] at h0
  have hu : u32ofI32 v < 4294967296 := by
    unfold u32ofI32
    omega
  unfold State.read
  rw [if_pos (by omega : addrOffset addr + 4 ≤
    (s.mem.take (addrOffset addr) ++ leBytes v ++
      s.mem.drop (addrOffset addr + 4)).length)]
  dsimp only
  rw [h0, h1, h2, h3]
  have hval : i32ofU32 ((leBytes v).getD 0 0 + 256 * (leBytes v).getD 1 0 +
      65536 * (leBytes v).getD 2 0 + 16777216 * (leBytes v).getD 3 0) = v := by
    simp only [leBytes, List.getD_eq_getElem?_getD, List.getElem?_cons_zero,
      List.getElem?_cons_succ, Option.getD_some]
    have hsum : u32ofI32 v % 256 + 256 * (u32ofI32 v / 256 % 256) +
        65536 * (u32ofI32 v / 65536 % 256) +
        16777216 * (u32ofI32 v / 16777216 % 256) = u32ofI32 v := by
      omega
    rw [hsum]
    unfold i32ofU32 u32ofI32
    unfold u32ofI32 at hu
    split <;> omega
  rw [hval]

/-- C6 witness: storing `-2` at address 0 of a four-byte memory and
reading it back. -/
theorem C6_store_read_roundtrip_witness :
    ((State.mk 0 0 0 0 0 [7, 7, 7, 7]).store 0 (-2)).isSome = true ∧
    (State.mk 0 0 0 0 0 [254, 255, 255, 255]).read 0 =
      some (State.mk 0 0 0 0 0 [254, 255, 255, 255], -2) :=
  ⟨(C6_store_read_roundtrip (State.mk 0 0 0 0 0 [7, 7, 7, 7]) 0 (-2)
      (by decide) (by decide) (by decide)).1,
   (C6_store_read_roundtrip (State.mk 0 0 0 0 0 [7, 7, 7, 7]) 0 (-2)
      (by decide) (by decide) (by decide)).2
     (State.mk 0 0 0 0 0 [254, 255, 255, 255]) (by decide)⟩

/-- C10: `store` modifies only the four memory bytes at the computed
offset — all five registers, the memory length, and the bytes strictly
before the offset and from offset `+ 4` on are unchanged — and `read`,
despite taking the state by mutable reference, returns the state
entirely unchanged. -/
theorem C10_frame :
    (∀ (s : State) (a v : Int) (s' : State), s.store a v = some s' →
      s'.r0 = s.r0 ∧ s'.r1 = s.r1 ∧ s'.r2 = s.r2 ∧ s'.r3 = s.r3 ∧
      s'.r4 = s.r4 ∧ s'.mem.length = s.mem.length ∧
      s'.mem.take (addrOffset a) = s.mem.take (addrOffset a) ∧
      s'.mem.drop (addrOffset a + 4) = s.mem.drop (addrOffset a + 4)) ∧
    (∀ (s : State) (a : Int) (s' : State) (v : Int),
      s.read a = some (s', v) → s' = s) := by
  constructor
  · intro s a v s' h
    unfold State.store at h
    dsimp only at h
    split at h
    · rename_i hin
      injection h with h
      subst h
      have hlt : (s.mem.take (addrOffset a)).length = addrOffset a := by
        rw [List.length_take]
        omega
      refine ⟨rfl, rfl, rfl, rfl, rfl, ?_, ?_, ?_⟩
      · simp only [List.length_append, hlt, leBytes, List.length_cons,
          List.length_nil, List.length_drop]
        omega
      · dsimp only
        rw [List.append_assoc, List.take_left' hlt]
      · dsimp only
        rw [List.drop_left' (by simp [List.length_append, hlt, leBytes])]
    · exact Option.noConfusion h
  · intro s a s' v h
    unfold State.read at h
    dsimp only at h
    split at h
    · injection h with h
      injection h with h1 h2
      exact h1.symm
    · exact Option.noConfusion h

/-- C10 witness: both frame statements at a concrete state. -/
theorem C10_frame_witness :
    ((State.mk 1 2 3 4 5 [5, 0, 0, 0]).r0 = (State.mk 1 2 3 4 5 [9, 9, 9, 9]).r0 ∧
     (State.mk 1 2 3 4 5 [5, 0, 0, 0]).r1 = (State.mk 1 2 3 4 5 [9, 9, 9, 9]).r1 ∧
     (State.mk 1 2 3 4 5 [5, 0, 0, 0]).r2 = (State.mk 1 2 3 4 5 [9, 9, 9, 9]).r2 ∧
     (State.mk 1 2 3 4 5 [5, 0, 0, 0]).r3 = (State.mk 1 2 3 4 5 [9, 9, 9, 9]).r3 ∧
     (State.mk 1 2 3 4 5 [5, 0, 0, 0]).r4 = (State.mk 1 2 3 4 5 [9, 9, 9, 9]).r4 ∧
     (State.mk 1 2 3 4 5 [5, 0, 0, 0]).mem.length =
       (State.mk 1 2 3 4 5 [9, 9, 9, 9]).mem.length ∧
     (State.mk 1 2 3 4 5 [5, 0, 0, 0]).mem.take (addrOffset 0) =
       (State.mk 1 2 3 4 5 [9, 9, 9, 9]).mem.take (addrOffset 0) ∧
     (State.mk 1 2 3 4 5 [5, 0, 0, 0]).mem.drop (addrOffset 0 + 4) =
       (State.mk 1 2 3 4 5 [9, 9, 9, 9]).mem.drop (addrOffset 0 + 4)) ∧
    (State.mk 1 2 3 4 5 [5, 0, 0, 0]) = (State.mk 1 2 3 4 5 [5, 0, 0, 0]) :=
  ⟨C10_frame.1 (State.mk 1 2 3 4 5 [9, 9, 9, 9]) 0 5
      (State.mk 1 2 3 4 5 [5, 0, 0, 0]) (by decide),
   C10_frame.2 (State.mk 1 2 3 4 5 [5, 0, 0, 0]) 0
      (State.mk 1 2 3 4 5 [5, 0, 0, 0]) 5 (by decide)⟩

/-- C9: executing a `Div` or `Mod` whose source operand evaluates to zero
fails with `DivisionByZero` and returns the state completely unmodified:
the failure is raised before the write-back, so no register or memory
write happens on the error path.  (The source has no generic executor —
decoded logic is hand-ported into named Rust functions — so `execute` is
modelled from the spec's §4.5 contract.) -/
theorem C9_div_mod_by_zero (i : Instruction) (s : State) (dv : Int)
    (hop : i.op = .Div ∨ i.op = .Mod)
    (hsv : readSource i s = .ok 0)
    (hdv : readDest i s = .ok dv) :
    execute i s = (s, .error .divisionByZero) := by
  obtain ⟨d, sr, dm, sm, op⟩ := i
  simp only at hop
  rcases hop with hop | hop
  · subst hop
    simp [execute, hsv, hdv, applyOp]
  · subst hop
    simp [execute, hsv, hdv, applyOp]

/-- C9 witness: dividing register 0 by the literal 0. -/
theorem C9_div_mod_by_zero_witness :
    execute ⟨0, 0, .NoPlusMinus, .LL, .Div⟩ (State.mk 7 0 0 0 0 []) =
      (State.mk 7 0 0 0 0 [], .error .divisionByZero) :=
  C9_div_mod_by_zero ⟨0, 0, .NoPlusMinus, .LL, .Div⟩ (State.mk 7 0 0 0 0 []) 7
    (Or.inl rfl) (by decide) (by decide)

end Weather
